import Mathlib

/-!
Verification development for the SmartScraper price-verification service
(`gemini_service_example.py`).  The Python source is shallowly embedded:

* Python `float` values are modelled as `ℚ` (all comparisons in the source
  are order/equality comparisons on small decimal literals, which agree
  with the rational model; non-finite floats never arise in the modelled
  code paths).
* JSON documents (the output of `json.loads`) are modelled by the
  inductive type `Json`; `json.loads` itself is a standard-library
  function, not repository code, so the parser is parameterised by an
  arbitrary `loads : String → Except String Json`.
* Python exceptions are modelled by the `PyExn` type; `try/except`
  becomes explicit `Except` routing.
* The two Gemini model collaborators are external services; an attempt's
  interaction with them is an `AttemptEnv` value giving the raw response
  text (or a raised exception) for each call.  All calls in one attempt
  use the single prompt built at the top of the attempt, so a re-query
  necessarily uses the same prompt.
-/

namespace SmartScraper

/-! ## Character classes of the detail cleaner

The regex in `_clean_plan_details` is `[^a-zA-Z0-9\s](?=[^a-zA-Z0-9\s])`:
the alphanumeric part is explicitly ASCII, `\s` is Python's (Unicode)
whitespace class.  `str.strip()` uses the same whitespace set.  We list
the full set of code points for which Python's `str.isspace` holds. -/

def pySpaceChars : List Char :=
  ['\t', '\n', '\x0b', '\x0c', '\r', '\x1c', '\x1d', '\x1e', '\x1f', ' ',
   '\x85', '\xa0', ' ', ' ', ' ', ' ', ' ',
   ' ', ' ', ' ', ' ', ' ', ' ', ' ',
   ' ', ' ', ' ', ' ', '　']

def isPySpace (c : Char) : Bool :=
  pySpaceChars.contains c

/-- A character matched by the class `[^a-zA-Z0-9\s]` of the source's
regex: not ASCII alphanumeric and not whitespace. -/
def isSpecial (c : Char) : Bool :=
  !(c.isAlphanum || isPySpace c)

/-! ## `_clean_plan_details` -/

/-- `re.sub(r'[^a-zA-Z0-9\s](?=[^a-zA-Z0-9\s])', '', ·)`: scanning left to
right, a special character is deleted exactly when the next character (a
lookahead, not consumed) is also special. -/
def collapseRuns : List Char → List Char
  | [] => []
  | [c] => [c]
  | c :: d :: rest =>
    if isSpecial c && isSpecial d then collapseRuns (d :: rest)
    else c :: collapseRuns (d :: rest)

/-- Python `str.strip()`: remove leading and trailing whitespace. -/
def pyStripList (l : List Char) : List Char :=
  ((l.dropWhile isPySpace).reverse.dropWhile isPySpace).reverse

def pyStripStr (s : String) : String :=
  String.mk (pyStripList s.toList)

/-- `GeminiService._clean_plan_details`.  `none` models Python `None`.
`if not plan_details` is true exactly for `None` and the empty string. -/
def cleanPlanDetails : Option String → String
  | none => "No details available"
  | some s =>
    if s = "" then "No details available"
    else String.mk (pyStripList (collapseRuns (s.toList.take 50)))

/-! ## JSON values

The result of `json.loads`.  Python distinguishes `int` and `float`
payloads; both are modelled by `Json.num` (the distinction only affects
the text of some exception messages, never control flow). -/

inductive Json where
  | null : Json
  | bool (b : Bool) : Json
  | num (q : ℚ) : Json
  | str (s : String) : Json
  | arr (elems : List Json) : Json
  | obj (kvs : List (String × Json)) : Json

/-- First-match association-list lookup (the key sets we reason about are
duplicate-free, so this matches Python `dict` lookup). -/
def lookupKey : List (String × Json) → String → Option Json
  | [], _ => none
  | (k, v) :: rest, key => if k = key then some v else lookupKey rest key

/-- Replace the value at a key, keeping its position, or append
(`d[k] = v` on a Python dict). -/
def setAssoc : List (String × Json) → String → Json → List (String × Json)
  | [], key, v => [(key, v)]
  | (k, w) :: rest, key, v =>
    if k = key then (key, v) :: rest else (k, w) :: setAssoc rest key v

/-- `d[k] = v` on the JSON document (only ever reached with `obj`). -/
def Json.setKey : Json → String → Json → Json
  | .obj kvs, key, v => .obj (setAssoc kvs key v)
  | j, _, _ => j

/-- Key lookup returning `none` for absent keys or non-objects. -/
def Json.getKey? : Json → String → Option Json
  | .obj kvs, key => lookupKey kvs key
  | _, _ => none

/-- Python `d.get(k)` with default `None`; a stored JSON `null` and an
absent key are both Python `None`, hence both `Json.null`. -/
def Json.getD (j : Json) (key : String) : Json :=
  (j.getKey? key).getD Json.null

/-- Python truthiness of a JSON value (`bool(x)` / `if not x`). -/
def pyTruthy : Json → Bool
  | .null => false
  | .bool b => b
  | .num q => q != 0
  | .str s => s != ""
  | .arr elems => !elems.isEmpty
  | .obj kvs => !kvs.isEmpty

/-- Python type name of a JSON value (appears only in exception text). -/
def Json.typeName : Json → String
  | .null => "NoneType"
  | .bool _ => "bool"
  | .num _ => "float"
  | .str _ => "str"
  | .arr _ => "list"
  | .obj _ => "dict"

/-! ## Python exceptions -/

inductive PyExn where
  | valueError (msg : String)
  | typeError (msg : String)
  | attributeError (msg : String)
  | indexError (msg : String)
  | keyError (msg : String)
  | other (msg : String)
deriving DecidableEq

/-- `str(e)`. -/
def PyExn.msg : PyExn → String
  | .valueError m => m
  | .typeError m => m
  | .attributeError m => m
  | .indexError m => m
  | .keyError m => m
  | .other m => m

/-! ## The verification record -/

inductive ErrorType where
  | INVALID_JSON
  | VALIDATION_ERROR
  | PROCESSING_ERROR
  | LOW_CONFIDENCE
  | VERIFICATION_FAILED
deriving DecidableEq

/-- The dictionary returned by `verify_price` / `_parse_verification_response`.
`verification_date` (wall-clock time) carries no verified content and is
omitted.  `plan_details` is `none` when the Python dict lacks the key
(error responses); `promo_details` is `Json.null` for Python `None`. -/
structure VerificationRecord where
  verified : Bool
  confidence_score : ℚ
  current_price : Option ℚ
  promo_details : Json
  plan_details : Option Json
  error : Option String
  error_type : Option ErrorType
  match_details : Json

/-- `GeminiService._create_error_response`. -/
def createErrorResponse (et : ErrorType) (msg : String) : VerificationRecord :=
  { verified := false
    confidence_score := 0
    current_price := none
    promo_details := .null
    plan_details := none
    error := some msg
    error_type := some et
    match_details := .obj [] }

/-! ## `float(x)` on JSON values -/

def digitsValQ (l : List Char) : ℚ :=
  l.foldl (fun acc c => acc * 10 + (c.toNat - '0'.toNat : ℕ)) 0

def digitsValN (l : List Char) : ℕ :=
  l.foldl (fun acc c => acc * 10 + (c.toNat - '0'.toNat)) 0

/-- Python `float(s)` for a string `s`: strip whitespace, then an optional
sign, a decimal mantissa (digits, optionally with one point, at least one
digit overall) and an optional exponent.  (Non-finite spellings such as
`inf`/`nan`, digit underscores and non-ASCII digits are outside the
rational model; they never occur in the properties below.) -/
def pyFloatOfString (s : String) : Option ℚ :=
  let l := pyStripList s.toList
  let sgn : ℚ × List Char :=
    match l with
    | '+' :: r => (1, r)
    | '-' :: r => (-1, r)
    | r => (1, r)
  let l1 := sgn.2
  let ip := l1.takeWhile Char.isDigit
  let r1 := l1.dropWhile Char.isDigit
  let mant : Option (ℚ × List Char) :=
    match r1 with
    | '.' :: r2 =>
      let fp := r2.takeWhile Char.isDigit
      let r3 := r2.dropWhile Char.isDigit
      if ip.isEmpty && fp.isEmpty then none
      else some (digitsValQ ip + digitsValQ fp / (10 : ℚ) ^ fp.length, r3)
    | r2 => if ip.isEmpty then none else some (digitsValQ ip, r2)
  match mant with
  | none => none
  | some (m, rest) =>
    match rest with
    | [] => some (sgn.1 * m)
    | e :: r4 =>
      if e = 'e' || e = 'E' then
        let esgn : ℤ × List Char :=
          match r4 with
          | '+' :: r => (1, r)
          | '-' :: r => (-1, r)
          | r => (1, r)
        let ed := esgn.2.takeWhile Char.isDigit
        let r6 := esgn.2.dropWhile Char.isDigit
        if ed.isEmpty || !r6.isEmpty then none
        else some (sgn.1 * m * (10 : ℚ) ^ (esgn.1 * (digitsValN ed : ℤ)))
      else none

/-- Python `float(x)` applied to a JSON value: numbers pass through,
booleans coerce, numeric strings parse (`ValueError` otherwise), every
other type raises `TypeError`. -/
def pyFloat : Json → Except PyExn ℚ
  | .num q => .ok q
  | .bool b => .ok (if b then 1 else 0)
  | .str s =>
    match pyFloatOfString s with
    | some q => .ok q
    | none => .error (.valueError ("could not convert string to float: '" ++ s ++ "'"))
  | v => .error (.typeError
      ("float() argument must be a string or a real number, not '" ++ v.typeName ++ "'"))

/-! ## Dynamic attribute/key access -/

/-- `data.get(k)`: `AttributeError` unless `data` is a dict. -/
def pyGet (data : Json) (key : String) : Except PyExn Json :=
  match data with
  | .obj kvs => .ok ((lookupKey kvs key).getD .null)
  | j => .error (.attributeError ("'" ++ j.typeName ++ "' object has no attribute 'get'"))

/-- `data[k]` subscription on a dict. -/
def pyIndex (data : Json) (key : String) : Except PyExn Json :=
  match data with
  | .obj kvs =>
    match lookupKey kvs key with
    | some v => .ok v
    | none => .error (.keyError ("'" ++ key ++ "'"))
  | j => .error (.typeError ("'" ++ j.typeName ++ "' object is not subscriptable"))

/-- `_clean_plan_details` applied to an arbitrary JSON value, following
Python dynamics: falsy values take the `not plan_details` branch, strings
are cleaned, any other truthy value raises `TypeError` (at the `[:50]`
slice or inside `re.sub`). -/
def pyCleanJson : Json → Except PyExn String
  | .str s => .ok (cleanPlanDetails (some s))
  | .null => .ok "No details available"
  | .bool b =>
    if b then .error (.typeError "'bool' object is not subscriptable")
    else .ok "No details available"
  | .num q =>
    if q = 0 then .ok "No details available"
    else .error (.typeError "'float' object is not subscriptable")
  | .arr elems =>
    if elems.isEmpty then .ok "No details available"
    else .error (.typeError "expected string or bytes-like object, got 'list'")
  | .obj kvs =>
    if kvs.isEmpty then .ok "No details available"
    else .error (.typeError "unhashable type: 'slice'")

/-! ## `_parse_verification_response` -/

/-- The required-field set `{'price', 'verified', 'confidence',
'match_criteria'}` (a Python set literal; its iteration order only
affects the order of names in the error message). -/
def requiredFields : List String :=
  ["price", "verified", "confidence", "match_criteria"]

/-- `float(data['price']) if data['price'] is not None else None`. -/
def pyFloatOrNone (v : Json) : Except PyExn (Option ℚ) :=
  match v with
  | .null => .ok none
  | v => (pyFloat v).map some

/-- The body of the parser's `try` block after `json.loads`, up to (and
excluding) the confidence-threshold demotion, which raises nothing and is
applied by `applyThreshold` below.  Any `.error` is an exception escaping
to the `except` clauses. -/
def parseDataCore (data : Json) : Except PyExn VerificationRecord :=
  match pyGet data "plan_details" with
  | .error e => .error e
  | .ok pdRaw =>
  match pyCleanJson pdRaw with
  | .error e => .error e
  | .ok pdClean =>
  let data1 := data.setKey "plan_details" (.str pdClean)
  match pyGet data1 "promotion_details" with
  | .error e => .error e
  | .ok prRaw =>
  match pyCleanJson prRaw with
  | .error e => .error e
  | .ok prClean =>
  let data2 := data1.setKey "promotion_details" (.str prClean)
  let missing := requiredFields.filter (fun f => (data2.getKey? f).isNone)
  if missing.isEmpty = false then
    .error (.valueError ("Missing required fields: " ++ String.intercalate ", " missing))
  else
  match pyIndex data2 "verified" with
  | .error e => .error e
  | .ok vVerified =>
  match pyIndex data2 "confidence" with
  | .error e => .error e
  | .ok vConf =>
  match pyFloat vConf with
  | .error e => .error e
  | .ok conf =>
  match pyIndex data2 "price" with
  | .error e => .error e
  | .ok vPrice =>
  match pyFloatOrNone vPrice with
  | .error e => .error e
  | .ok price =>
  match pyIndex data2 "match_criteria" with
  | .error e => .error e
  | .ok md =>
    .ok { verified := pyTruthy vVerified
          confidence_score := conf
          current_price := price
          promo_details := data2.getD "promo"
          plan_details := some (data2.getD "plan_details")
          error := none
          error_type := none
          match_details := md }

/-- The source's literal `0.8`, i.e. `4/5`, given as an explicitly
normalized rational so that comparisons against it evaluate by kernel
reduction. -/
def ratPointEight : ℚ := ⟨4, 5, by decide, by decide⟩

theorem ratPointEight_eq : ratPointEight = 4 / 5 := by
  rw [ratPointEight]
  norm_num [Rat.mk'_eq_divInt, Rat.divInt_eq_div]

/-- The confidence-threshold demotion (`0.8` as a rational is `4/5`):
a `verified` claim below threshold is downgraded to `LOW_CONFIDENCE`. -/
def applyThreshold (r : VerificationRecord) : VerificationRecord :=
  if r.verified ∧ r.confidence_score < ratPointEight then
    { r with verified := false
             error_type := some .LOW_CONFIDENCE
             error := some "Confidence score below threshold" }
  else r

/-- The `except` clauses: `ValueError` (which `json.JSONDecodeError` is
routed away from, being caught first at `loads` time) becomes
`VALIDATION_ERROR` with `str(e)` as message; every other exception
becomes `PROCESSING_ERROR` with the original text appended. -/
def routeExn : PyExn → VerificationRecord
  | .valueError m => createErrorResponse .VALIDATION_ERROR m
  | e => createErrorResponse .PROCESSING_ERROR ("Failed to process response: " ++ e.msg)

def parseData (data : Json) : VerificationRecord :=
  match parseDataCore data with
  | .ok r => applyThreshold r
  | .error e => routeExn e

/-- Does `l` start with `pat`? -/
def startsWithList : List Char → List Char → Bool
  | _, [] => true
  | [], _ :: _ => false
  | c :: l, p :: pat => c == p && startsWithList l pat

/-- `str.split(sep)` for a non-empty separator: split on every
non-overlapping occurrence, scanning left to right.  `acc` is the
current piece reversed; `fuel` (instantiated with the input length, which
always suffices since a non-empty separator consumes at least one
character) keeps the recursion structural. -/
def pySplitAux (sep : List Char) : ℕ → List Char → List Char → List (List Char)
  | _, acc, [] => [acc.reverse]
  | 0, acc, l => [acc.reverse ++ l]
  | fuel + 1, acc, c :: rest =>
    if startsWithList (c :: rest) sep then
      acc.reverse :: pySplitAux sep fuel [] ((c :: rest).drop sep.length)
    else
      pySplitAux sep fuel (c :: acc) rest

/-- Python `s.split(sep)`. -/
def pySplit (s sep : String) : List String :=
  (pySplitAux sep.toList s.toList.length [] s.toList).map String.mk

/-- The markdown-fence preprocessing: when the raw text contains
`'```json'`, take `split('```json\n')[1].split('\n```')[0]` (the `[1]`
raises `IndexError` when the fence has no trailing newline), then strip
whitespace.  The membership test `'```json' in s` holds exactly when the
split on that separator has more than one piece. -/
def preprocess (s : String) : Except PyExn String :=
  if (pySplit s "```json").length > 1 then
    match pySplit s "```json\n" with
    | _ :: second :: _ => .ok (pyStripStr ((pySplit second "\n```").headD ""))
    | _ => .error (.indexError "list index out of range")
  else .ok (pyStripStr s)

/-- `GeminiService._parse_verification_response`, parameterised by the
standard-library `json.loads` (`.error` = `json.JSONDecodeError`). -/
def parseResponse (loads : String → Except String Json) (raw : String) : VerificationRecord :=
  match preprocess raw with
  | .error e => routeExn e
  | .ok txt =>
    match loads txt with
    | .error _ => createErrorResponse .INVALID_JSON "Failed to parse JSON response"
    | .ok data => parseData data

/-! ## `verify_price`: reconciliation and the retry loop

`provider_url` and the non-price fields of `plan_details` feed only the
prompt text, the cache key and log records; the decision logic reads only
`plan_details.get('price')`, which is the one field modelled. -/

/-- The advertised plan data passed by the caller;
`price` is `plan_details.get('price', None)`. -/
structure PlanDetails where
  price : Option ℚ

/-- `self.model` (gemini-2.0-flash) is `primary`;
`self.model2` (gemini-2.0-flash-lite) is `secondary`. -/
inductive ModelId where
  | primary
  | secondary
deriving DecidableEq

/-- One attempt's interaction with the external model collaborators: the
response text of each `generate_content` call on the attempt's single
prompt, or the exception it raises.  `requery` is the extra call issued
on a price mismatch. -/
structure AttemptEnv where
  primaryResp : Except String String
  secondaryResp : Except String String
  requery : ModelId → Except String String

/-- Python `max(records, key=confidence_score)`: the first record of
maximal confidence wins (later records replace only on strictly greater
key). -/
def pyMaxByConf (first : VerificationRecord) (rest : List VerificationRecord) :
    VerificationRecord :=
  rest.foldl (fun best x => if best.confidence_score < x.confidence_score then x else best)
    first

/-- The model chosen for the re-query when prices mismatch, or the
`ValueError` that restarts the whole attempt: on unequal confidence the
lower-confidence model; on equal confidence the model whose price does
not match the advertised price, provided exactly one matches. -/
def pickRequeryModel (pd : PlanDetails) (r1 r2 : VerificationRecord) :
    Except PyExn ModelId :=
  if r1.confidence_score = r2.confidence_score then
    let originalPrice := pd.price
    let price1Matches := originalPrice.isSome && (r1.current_price == originalPrice)
    let price2Matches := originalPrice.isSome && (r2.current_price == originalPrice)
    if price1Matches && !price2Matches then .ok .secondary
    else if price2Matches && !price1Matches then .ok .primary
    else .error (.valueError "Equal confidence with unclear match quality requires full retry")
  else .ok (if r1.confidence_score > r2.confidence_score then .secondary else .primary)

/-- Lines 219–280 of the source: disagreement detection, re-query and
final selection, given the two parsed results.  The second component
lists the re-queries issued (the source issues at most one). -/
def reconcileStep (loads : String → Except String Json) (pd : PlanDetails)
    (requery : ModelId → Except String String) (r1 r2 : VerificationRecord) :
    Except PyExn VerificationRecord × List ModelId :=
  if r1.current_price ≠ r2.current_price then
    match pickRequeryModel pd r1 r2 with
    | .error e => (.error e, [])
    | .ok m =>
      match requery m with
      | .error e => (.error (.other e), [m])
      | .ok txt =>
        let retryResult := parseResponse loads txt
        (.ok (pyMaxByConf r1 [r2, retryResult]), [m])
  else
    (.ok (if r1.confidence_score ≥ r2.confidence_score then r1 else r2), [])

/-- One iteration of the `while` loop's `try` body: both model calls (an
exception from either propagates out of `asyncio.gather`), both parses,
then reconciliation.  `.error` is the exception reaching the attempt's
`except` handler. -/
def attemptBody (loads : String → Except String Json) (pd : PlanDetails)
    (env : AttemptEnv) : Except PyExn VerificationRecord × List ModelId :=
  match env.primaryResp with
  | .error e => (.error (.other e), [])
  | .ok t1 =>
    match env.secondaryResp with
    | .error e => (.error (.other e), [])
    | .ok t2 =>
      reconcileStep loads pd env.requery (parseResponse loads t1) (parseResponse loads t2)

/-- `_handle_retry_delay`: exponential backoff,
`min(300, 2 ** attempt * 30)` seconds. -/
def handleRetryDelay (attempt : ℕ) : ℕ :=
  min 300 (2 ^ attempt * 30)

/-- The terminal record returned when the retry budget is exhausted. -/
def terminalRecord (lastError : Option String) : VerificationRecord :=
  { verified := false
    confidence_score := 0
    current_price := none
    promo_details := .null
    plan_details := none
    error := lastError
    error_type := some .VERIFICATION_FAILED
    match_details := .obj [] }

/-- Observable side effects of one `verify_price` call. -/
structure Stats where
  failures : ℕ
  delays : List ℕ
  requeries : List ModelId
  cacheWrites : List VerificationRecord
  attemptsRun : ℕ

def Stats.empty : Stats :=
  { failures := 0, delays := [], requeries := [], cacheWrites := [], attemptsRun := 0 }

/-- The `while retry_attempt < retry_count` loop.  `fuel` is
`retry_count - retry_attempt` and `idx` is `retry_attempt`; `envs idx`
supplies attempt `idx`'s model interactions.  On success the result is
cached exactly when `verified and confidence_score > 0.8`; on an
exception the failure is counted, `_handle_retry_delay(retry_attempt)`
runs with the incremented counter, and the loop continues. -/
def runAttempts (loads : String → Except String Json) (pd : PlanDetails)
    (envs : ℕ → AttemptEnv) : ℕ → ℕ → Option String → VerificationRecord × Stats
  | 0, _, lastError => (terminalRecord lastError, Stats.empty)
  | fuel + 1, idx, _ =>
    match attemptBody loads pd (envs idx) with
    | (.ok result, reqs) =>
      let writes :=
        if result.verified ∧ result.confidence_score > ratPointEight then [result] else []
      (result,
       { failures := 0, delays := [], requeries := reqs, cacheWrites := writes,
         attemptsRun := 1 })
    | (.error e, reqs) =>
      let d := handleRetryDelay (idx + 1)
      let rest := runAttempts loads pd envs fuel (idx + 1) (some e.msg)
      (rest.1,
       { failures := rest.2.failures + 1
         delays := d :: rest.2.delays
         requeries := reqs ++ rest.2.requeries
         cacheWrites := rest.2.cacheWrites
         attemptsRun := rest.2.attemptsRun + 1 })

/-- `GeminiService.verify_price`.  The cache lookup that precedes the
loop is supplied as `cached` (the return value of `_get_cached_result`);
a hit returns immediately.  The function is total: no exception ever
escapes to the caller. -/
def verifyPrice (loads : String → Except String Json) (pd : PlanDetails)
    (envs : ℕ → AttemptEnv) (retryCount : ℕ) (cached : Option VerificationRecord) :
    VerificationRecord × Stats :=
  match cached with
  | some c => (c, Stats.empty)
  | none => runAttempts loads pd envs retryCount 0 none

/-! ## The cleaner as the specification words it

The spec describes the cleaner as collapsing "any run of two or more
consecutive non-alphanumeric, non-whitespace characters down to a single
occurrence".  The definitions below follow that wording directly (find
each maximal special run, keep one designated character of it); the
`keepLast` flag selects which character survives: the claim as stated
says the first of each run, the code keeps the last. -/

/-- Modelled from the spec: run-at-a-time collapsing.  `fuel` (always
instantiated with the list length) makes the jump over a whole run
structurally recursive. -/
def specCollapseFuel (keepLast : Bool) : ℕ → List Char → List Char
  | 0, _ => []
  | _ + 1, [] => []
  | fuel + 1, c :: rest =>
    if isSpecial c then
      let run := c :: rest.takeWhile isSpecial
      let keep := if keepLast then run.getLastD c else c
      keep :: specCollapseFuel keepLast fuel (rest.dropWhile isSpecial)
    else c :: specCollapseFuel keepLast fuel rest

def specCollapse (keepLast : Bool) (l : List Char) : List Char :=
  specCollapseFuel keepLast l.length l

/-- Modelled from the spec (§4.1 step 4): truncate to 50 characters,
collapse each special run to a single surviving character, trim
whitespace; absent or empty input yields the placeholder. -/
def specClean (keepLast : Bool) : Option String → String
  | none => "No details available"
  | some s =>
    if s = "" then "No details available"
    else String.mk (pyStripList (specCollapse keepLast (s.toList.take 50)))

/-! ### The code cleaner collapses runs keeping the LAST character -/

theorem collapseRuns_cons_of_not_special {c : Char} (l : List Char)
    (hc : isSpecial c = false) : collapseRuns (c :: l) = c :: collapseRuns l := by
  cases l <;> simp [collapseRuns, hc]

theorem collapseRuns_cons_special :
    ∀ (l : List Char) (c : Char), isSpecial c = true →
      collapseRuns (c :: l) =
        (l.takeWhile isSpecial).getLastD c :: collapseRuns (l.dropWhile isSpecial)
  | [], c, _ => by simp [collapseRuns]
  | d :: rest, c, hc => by
    by_cases hd : isSpecial d = true
    · rw [List.takeWhile_cons, List.dropWhile_cons]
      simp only [hd, if_true, List.getLastD_cons]
      rw [← collapseRuns_cons_special rest d hd]
      simp [collapseRuns, hc, hd]
    · rw [List.takeWhile_cons, List.dropWhile_cons]
      simp only [hd]
      simp only [Bool.not_eq_true] at hd
      simp [collapseRuns, hc, hd, List.getLastD]

theorem specCollapseFuel_eq_collapseRuns :
    ∀ (fuel : ℕ) (l : List Char), l.length ≤ fuel →
      specCollapseFuel true fuel l = collapseRuns l
  | 0, l, h => by
    rw [Nat.le_zero, List.length_eq_zero] at h
    subst h
    rfl
  | fuel + 1, [], _ => rfl
  | fuel + 1, c :: rest, h => by
    by_cases hc : isSpecial c = true
    · rw [collapseRuns_cons_special rest c hc]
      have hlen : (rest.dropWhile isSpecial).length ≤ fuel :=
        le_trans ((List.dropWhile_sublist _).length_le) (Nat.succ_le_succ_iff.mp h)
      simp only [specCollapseFuel, hc, if_true,
        specCollapseFuel_eq_collapseRuns fuel _ hlen, List.getLastD_cons]
    · simp only [Bool.not_eq_true] at hc
      rw [collapseRuns_cons_of_not_special rest hc]
      simp only [specCollapseFuel, hc, Bool.false_eq_true, if_false,
        specCollapseFuel_eq_collapseRuns fuel rest (Nat.succ_le_succ_iff.mp h)]

/-! ### Structural facts about the cleaner, towards idempotence -/

/-- No two adjacent characters are both special. -/
def NoDoubleSpecial (l : List Char) : Prop :=
  List.Chain' (fun a b => isSpecial a = false ∨ isSpecial b = false) l

theorem collapseRuns_length_le :
    ∀ l : List Char, (collapseRuns l).length ≤ l.length
  | [] => le_refl _
  | [_] => le_refl _
  | c :: d :: rest => by
    by_cases h : (isSpecial c && isSpecial d) = true
    · simp only [collapseRuns, h, if_true]
      exact le_trans (collapseRuns_length_le (d :: rest)) (Nat.le_succ _)
    · simp only [collapseRuns, h, if_false, List.length_cons]
      exact Nat.succ_le_succ (collapseRuns_length_le (d :: rest))

theorem noDoubleSpecial_collapseRuns :
    ∀ l : List Char, NoDoubleSpecial (collapseRuns l)
  | [] => List.chain'_nil
  | [c] => List.chain'_singleton c
  | c :: d :: rest => by
    by_cases h : (isSpecial c && isSpecial d) = true
    · simp only [collapseRuns, h, if_true]
      exact noDoubleSpecial_collapseRuns (d :: rest)
    · simp only [collapseRuns, h, if_false]
      refine List.chain'_cons'.mpr ⟨?_, noDoubleSpecial_collapseRuns (d :: rest)⟩
      intro y hy
      have h2 : ¬(isSpecial c = true ∧ isSpecial d = true) := by
        intro hcd
        exact h (by rw [hcd.1, hcd.2]; rfl)
      rcases not_and_or.mp h2 with hc | hd
      · simp only [Bool.not_eq_true] at hc
        exact Or.inl hc
      · have hd' : isSpecial d = false := by
          simpa using hd
        rw [collapseRuns_cons_of_not_special rest hd'] at hy
        simp only [List.head?_cons, Option.mem_def, Option.some.injEq] at hy
        exact Or.inr (hy ▸ hd')

theorem collapseRuns_eq_self :
    ∀ l : List Char, NoDoubleSpecial l → collapseRuns l = l
  | [], _ => rfl
  | [_], _ => rfl
  | c :: d :: rest, h => by
    rcases List.chain'_cons'.mp h with ⟨hhead, htail⟩
    have hcd : (isSpecial c && isSpecial d) = false := by
      rcases hhead d (by simp) with hc | hd
      · simp [hc]
      · simp [hd]
    simp only [collapseRuns, hcd, Bool.false_eq_true, if_false, List.cons.injEq,
      true_and]
    exact collapseRuns_eq_self (d :: rest) htail

theorem chain'_dropWhile {R : Char → Char → Prop} (p : Char → Bool) :
    ∀ l : List Char, List.Chain' R l → List.Chain' R (l.dropWhile p)
  | [], h => h
  | c :: rest, h => by
    rw [List.dropWhile_cons]
    by_cases hp : p c = true
    · simp only [hp, if_true]
      exact chain'_dropWhile p rest h.tail
    · simp only [hp, if_false]
      exact h

theorem noDoubleSpecial_pyStripList {l : List Char} (h : NoDoubleSpecial l) :
    NoDoubleSpecial (pyStripList l) := by
  have h1 : NoDoubleSpecial (l.dropWhile isPySpace) := chain'_dropWhile _ _ h
  have h2 : List.Chain' (flip fun a b => isSpecial a = false ∨ isSpecial b = false)
      (l.dropWhile isPySpace) := h1.imp fun a b hab => Or.symm hab
  have h3 : NoDoubleSpecial (l.dropWhile isPySpace).reverse :=
    List.chain'_reverse.mpr h2
  have h4 : NoDoubleSpecial ((l.dropWhile isPySpace).reverse.dropWhile isPySpace) :=
    chain'_dropWhile _ _ h3
  have h5 : List.Chain' (flip fun a b => isSpecial a = false ∨ isSpecial b = false)
      ((l.dropWhile isPySpace).reverse.dropWhile isPySpace) :=
    h4.imp fun a b hab => Or.symm hab
  exact List.chain'_reverse.mpr h5

theorem pyStripList_length_le (l : List Char) : (pyStripList l).length ≤ l.length := by
  unfold pyStripList
  rw [List.length_reverse]
  refine le_trans ((List.dropWhile_sublist _).length_le) ?_
  rw [List.length_reverse]
  exact (List.dropWhile_sublist _).length_le

theorem dropWhile_dropWhile_self (p : Char → Bool) :
    ∀ l : List Char, (l.dropWhile p).dropWhile p = l.dropWhile p
  | [] => rfl
  | c :: rest => by
    rw [List.dropWhile_cons]
    by_cases hp : p c = true
    · simp only [hp, if_true]
      exact dropWhile_dropWhile_self p rest
    · simp [List.dropWhile_cons, hp]

theorem head?_dropWhile_not (p : Char → Bool) :
    ∀ (l : List Char) (c : Char), (l.dropWhile p).head? = some c → p c = false
  | [], c, h => by simp at h
  | a :: rest, c, h => by
    rw [List.dropWhile_cons] at h
    by_cases hp : p a = true
    · rw [if_pos hp] at h
      exact head?_dropWhile_not p rest c h
    · rw [if_neg hp, List.head?_cons, Option.some.injEq] at h
      subst h
      exact Bool.not_eq_true _ |>.mp hp

theorem getLast?_dropWhile (p : Char → Bool) :
    ∀ l : List Char, l.dropWhile p ≠ [] → (l.dropWhile p).getLast? = l.getLast?
  | [], h => absurd rfl h
  | a :: rest, h => by
    rw [List.dropWhile_cons] at h ⊢
    by_cases hp : p a = true
    · rw [if_pos hp] at h ⊢
      rw [getLast?_dropWhile p rest h]
      have hrest : rest ≠ [] := by
        rintro rfl
        exact h rfl
      obtain ⟨b, r, rfl⟩ := List.exists_cons_of_ne_nil hrest
      exact List.getLast?_cons_cons.symm
    · rw [if_neg hp]

theorem dropWhile_eq_self_of_head? (p : Char → Bool) {l : List Char} {c : Char}
    (hh : l.head? = some c) (hc : p c = false) : l.dropWhile p = l := by
  cases l with
  | nil => rfl
  | cons a rest =>
    rw [List.head?_cons, Option.some.injEq] at hh
    subst hh
    simp [List.dropWhile_cons, hc]

/-- Dropping trailing whitespace from a list whose front is already
stripped does not expose new leading whitespace. -/
theorem dropWhile_dropTrailing (p : Char → Bool) (m : List Char)
    (hmm : m.dropWhile p = m) :
    ((m.reverse.dropWhile p).reverse).dropWhile p = (m.reverse.dropWhile p).reverse := by
  by_cases hunil : m.reverse.dropWhile p = []
  · rw [hunil]
    rfl
  · have hmne : m ≠ [] := by
      rintro rfl
      exact hunil rfl
    obtain ⟨c, r, hcr⟩ := List.exists_cons_of_ne_nil hmne
    have hcp : p c = false := by
      refine head?_dropWhile_not p m c ?_
      rw [hmm, hcr]
      rfl
    have hlast : (m.reverse.dropWhile p).getLast? = some c := by
      rw [getLast?_dropWhile p _ hunil, List.getLast?_reverse, hcr]
      rfl
    have hhr : (m.reverse.dropWhile p).reverse.head? = some c := by
      rw [List.head?_reverse, hlast]
    exact dropWhile_eq_self_of_head? p hhr hcp

theorem pyStripList_idem (l : List Char) : pyStripList (pyStripList l) = pyStripList l := by
  show ((((((l.dropWhile isPySpace).reverse.dropWhile
      isPySpace).reverse).dropWhile isPySpace).reverse).dropWhile isPySpace).reverse =
    ((l.dropWhile isPySpace).reverse.dropWhile isPySpace).reverse
  rw [dropWhile_dropTrailing isPySpace (l.dropWhile isPySpace)
    (dropWhile_dropWhile_self _ _)]
  rw [List.reverse_reverse, dropWhile_dropWhile_self]

/-! ## Claims C6 and C7: the detail cleaner -/

/-- **C6, counterexample.**  The claim states that the cleaner keeps the
*first* character of each run of consecutive special characters
(`specClean false`).  On input `"a!?b"` the code (whose regex deletes a
special character whenever the *next* character is special) returns
`"a?b"`, while the claimed behaviour returns `"a!b"`. -/
theorem c6_counterexample :
    cleanPlanDetails (some "a!?b") ≠ specClean false (some "a!?b") := by
  decide

/-- **C6, amended.**  For every input, the detail-cleaning function
returns the first 50 characters with every run of two or more
consecutive non-alphanumeric, non-whitespace characters collapsed to a
single occurrence that keeps the *last* character of each run, then
trimmed of leading and trailing whitespace; absent or empty input yields
the literal string "No details available". -/
theorem c6_cleaning_keeps_last_of_run (s? : Option String) :
    cleanPlanDetails s? = specClean true s? := by
  cases s? with
  | none => rfl
  | some s =>
    by_cases h : s = ""
    · simp [cleanPlanDetails, specClean, h]
    · simp only [cleanPlanDetails, specClean, h, if_false]
      rw [specCollapse, specCollapseFuel_eq_collapseRuns _ _ le_rfl]

/-- **C7, counterexample.**  Cleaning is not idempotent: a nonempty
all-whitespace input cleans to the empty string, which re-cleans to the
placeholder text. -/
theorem c7_counterexample :
    cleanPlanDetails (some (cleanPlanDetails (some " "))) ≠
      cleanPlanDetails (some " ") := by
  decide

/-- **C7, amended.**  `clean(clean(x)) = clean(x)` for every string `x`
whose cleaning result is nonempty (the only failures are nonempty inputs
that clean to the empty string, which re-clean to the placeholder). -/
theorem c7_clean_idempotent_on_nonempty (s : String)
    (h : cleanPlanDetails (some s) ≠ "") :
    cleanPlanDetails (some (cleanPlanDetails (some s))) = cleanPlanDetails (some s) := by
  by_cases hs : s = ""
  · subst hs
    decide
  · have hy : cleanPlanDetails (some s) =
        String.mk (pyStripList (collapseRuns (s.toList.take 50))) := by
      simp [cleanPlanDetails, hs]
    set yl := pyStripList (collapseRuns (s.toList.take 50)) with hyl
    rw [hy]
    have hyne : String.mk yl ≠ "" := hy ▸ h
    have h50 : yl.length ≤ 50 := by
      rw [hyl]
      refine le_trans (pyStripList_length_le _) ?_
      refine le_trans (collapseRuns_length_le _) ?_
      rw [List.length_take]
      exact min_le_left _ _
    have htake : yl.take 50 = yl := List.take_of_length_le h50
    have hnd : NoDoubleSpecial yl :=
      hyl ▸ noDoubleSpecial_pyStripList (noDoubleSpecial_collapseRuns _)
    have hcr : collapseRuns yl = yl := collapseRuns_eq_self yl hnd
    have hstrip : pyStripList yl = yl := by
      rw [hyl]
      exact pyStripList_idem _
    show cleanPlanDetails (some (String.mk yl)) = String.mk yl
    simp only [cleanPlanDetails, hyne, if_false]
    have htl : (String.mk yl).toList = yl := rfl
    rw [htl, htake, hcr, hstrip]

/-- **C7, witness** for the amended idempotence theorem at `s = "ab"`. -/
theorem c7_clean_idempotent_witness :
    cleanPlanDetails (some "ab") ≠ "" ∧
      cleanPlanDetails (some (cleanPlanDetails (some "ab"))) = cleanPlanDetails (some "ab") :=
  ⟨by decide, c7_clean_idempotent_on_nonempty "ab" (by decide)⟩

/-! ## The threshold invariant (C1) -/

/-- The record invariant of C1: a verified record has confidence at least
0.8 and a null error type. -/
def RecInv (r : VerificationRecord) : Prop :=
  r.verified = true → 4 / 5 ≤ r.confidence_score ∧ r.error_type = none

theorem recInv_createErrorResponse (et : ErrorType) (m : String) :
    RecInv (createErrorResponse et m) := by
  intro h
  simp [createErrorResponse] at h

theorem recInv_routeExn (e : PyExn) : RecInv (routeExn e) := by
  cases e <;> exact recInv_createErrorResponse _ _

theorem applyThreshold_promo (r : VerificationRecord) :
    (applyThreshold r).promo_details = r.promo_details := by
  unfold applyThreshold
  split <;> rfl

theorem recInv_applyThreshold (r : VerificationRecord) (he : r.error_type = none) :
    RecInv (applyThreshold r) := by
  unfold applyThreshold
  split
  · intro h
    simp at h
  · next hcond =>
    intro hv
    refine ⟨?_, he⟩
    rcases not_and_or.mp hcond with h1 | h2
    · exact absurd hv h1
    · rw [← ratPointEight_eq]
      exact le_of_not_lt h2

/-! ### Shapes of the helper functions' exceptions -/

theorem pyGet_error_shape (d : Json) (k : String) (e : PyExn)
    (h : pyGet d k = .error e) : ∃ m, e = .attributeError m := by
  cases d <;>
    first
      | exact Except.noConfusion h
      | exact ⟨_, (Except.error.inj h).symm⟩

theorem pyCleanJson_error_shape (v : Json) (e : PyExn)
    (h : pyCleanJson v = .error e) : ∃ m, e = .typeError m := by
  cases v with
  | str s => exact Except.noConfusion h
  | null => exact Except.noConfusion h
  | bool b =>
    cases b with
    | true => exact ⟨_, (Except.error.inj h).symm⟩
    | false => exact Except.noConfusion h
  | num q =>
    simp only [pyCleanJson] at h
    split at h
    · exact Except.noConfusion h
    · exact ⟨_, (Except.error.inj h).symm⟩
  | arr elems =>
    simp only [pyCleanJson] at h
    split at h
    · exact Except.noConfusion h
    · exact ⟨_, (Except.error.inj h).symm⟩
  | obj kvs =>
    simp only [pyCleanJson] at h
    split at h
    · exact Except.noConfusion h
    · exact ⟨_, (Except.error.inj h).symm⟩

theorem pyIndex_error_shape (d : Json) (k : String) (e : PyExn)
    (h : pyIndex d k = .error e) :
    (∃ m, e = .keyError m) ∨ (∃ m, e = .typeError m) := by
  cases d with
  | obj kvs =>
    simp only [pyIndex] at h
    split at h
    · exact Except.noConfusion h
    · exact Or.inl ⟨_, (Except.error.inj h).symm⟩
  | null => exact Or.inr ⟨_, (Except.error.inj h).symm⟩
  | bool b => exact Or.inr ⟨_, (Except.error.inj h).symm⟩
  | num q => exact Or.inr ⟨_, (Except.error.inj h).symm⟩
  | str s => exact Or.inr ⟨_, (Except.error.inj h).symm⟩
  | arr elems => exact Or.inr ⟨_, (Except.error.inj h).symm⟩

theorem pyFloat_error_shape (v : Json) (e : PyExn) (h : pyFloat v = .error e) :
    (∃ s, v = .str s ∧ e = .valueError ("could not convert string to float: '" ++ s ++ "'")) ∨
      (∃ m, e = .typeError m) := by
  cases v with
  | num q => exact Except.noConfusion h
  | bool b => exact Except.noConfusion h
  | str s =>
    simp only [pyFloat] at h
    split at h
    · exact Except.noConfusion h
    · exact Or.inl ⟨s, rfl, (Except.error.inj h).symm⟩
  | null => exact Or.inr ⟨_, (Except.error.inj h).symm⟩
  | arr elems => exact Or.inr ⟨_, (Except.error.inj h).symm⟩
  | obj kvs => exact Or.inr ⟨_, (Except.error.inj h).symm⟩

theorem exceptMap_error {α β γ : Type} (f : α → β) (x : Except γ α) (e : γ)
    (h : x.map f = .error e) : x = .error e := by
  cases x with
  | ok a => exact Except.noConfusion h
  | error e2 =>
    simp only [Except.map] at h
    obtain rfl := Except.error.inj h
    rfl

theorem pyFloatOrNone_error_shape (v : Json) (e : PyExn)
    (h : pyFloatOrNone v = .error e) :
    (∃ s, e = .valueError ("could not convert string to float: '" ++ s ++ "'")) ∨
      (∃ m, e = .typeError m) := by
  have hfl : ∀ (w : Json), pyFloat w = .error e →
      (∃ s, e = .valueError ("could not convert string to float: '" ++ s ++ "'")) ∨
        (∃ m, e = .typeError m) := by
    intro w hw
    rcases pyFloat_error_shape w e hw with ⟨s, _, hs⟩ | hr
    · exact Or.inl ⟨s, hs⟩
    · exact Or.inr hr
  unfold pyFloatOrNone at h
  split at h
  · exact Except.noConfusion h
  · exact hfl _ (exceptMap_error _ _ _ h)

/-! ### The shapes of `parseDataCore`'s results -/

/-- A successful parse has null `error`/`error_type`, and its
`promo_details` field is `data.get('promo')` read from the document after
the two cleaning writes. -/
theorem parseDataCore_ok_shape (data : Json) (r : VerificationRecord)
    (h : parseDataCore data = .ok r) :
    r.error_type = none ∧ r.error = none ∧
      ∃ s1 s2, r.promo_details =
        ((data.setKey "plan_details" (.str s1)).setKey "promotion_details"
          (.str s2)).getD "promo" := by
  unfold parseDataCore at h
  repeat' (first | split at h | simp only [] at h)
  all_goals try exact Except.noConfusion h
  all_goals (injection h with h2; subst h2; exact ⟨rfl, rfl, _, _, rfl⟩)

/-- Every exception escaping the parser's `try` body is one of: an
`AttributeError`/`TypeError`/`KeyError` (dynamic-type failures), the
missing-required-fields `ValueError`, or the string-to-float coercion
`ValueError`. -/
theorem parseDataCore_error_shape (data : Json) (e : PyExn)
    (h : parseDataCore data = .error e) :
    (∃ m, e = .attributeError m) ∨ (∃ m, e = .typeError m) ∨ (∃ m, e = .keyError m) ∨
      (∃ t, e = .valueError ("Missing required fields: " ++ t)) ∨
      (∃ s, e = .valueError ("could not convert string to float: '" ++ s ++ "'")) := by
  unfold parseDataCore at h
  repeat' (first | split at h | simp only [] at h)
  all_goals try exact Except.noConfusion h
  all_goals obtain rfl := Except.error.inj h
  all_goals first
    | (obtain ⟨mm, rfl⟩ := pyGet_error_shape _ _ _ (by assumption)
       exact Or.inl ⟨mm, rfl⟩)
    | (obtain ⟨mm, rfl⟩ := pyCleanJson_error_shape _ _ (by assumption)
       exact Or.inr (Or.inl ⟨mm, rfl⟩))
    | (rcases pyIndex_error_shape _ _ _ (by assumption) with ⟨mm, rfl⟩ | ⟨mm, rfl⟩
       exacts [Or.inr (Or.inr (Or.inl ⟨mm, rfl⟩)), Or.inr (Or.inl ⟨mm, rfl⟩)])
    | exact Or.inr (Or.inr (Or.inr (Or.inl ⟨_, rfl⟩)))
    | (rcases pyFloatOrNone_error_shape _ _ (by assumption) with ⟨s, rfl⟩ | ⟨mm, rfl⟩
       exacts [Or.inr (Or.inr (Or.inr (Or.inr ⟨s, rfl⟩))),
         Or.inr (Or.inl ⟨mm, rfl⟩)])
    | (rcases pyFloat_error_shape _ _ (by assumption) with ⟨s, _, rfl⟩ | ⟨mm, rfl⟩
       exacts [Or.inr (Or.inr (Or.inr (Or.inr ⟨s, rfl⟩))),
         Or.inr (Or.inl ⟨mm, rfl⟩)])

/-- A `ValueError` escaping the parser's `try` body carries either the
missing-fields message or the float-coercion message. -/
theorem parseDataCore_valueError (data : Json) (m : String)
    (h : parseDataCore data = .error (.valueError m)) :
    (∃ t, m = "Missing required fields: " ++ t) ∨
      (∃ s, m = "could not convert string to float: '" ++ s ++ "'") := by
  rcases parseDataCore_error_shape data _ h with
    ⟨mm, hmm⟩ | ⟨mm, hmm⟩ | ⟨mm, hmm⟩ | ⟨t, ht⟩ | ⟨s, hs⟩
  · exact PyExn.noConfusion hmm
  · exact PyExn.noConfusion hmm
  · exact PyExn.noConfusion hmm
  · exact Or.inl ⟨t, PyExn.valueError.inj ht⟩
  · exact Or.inr ⟨s, PyExn.valueError.inj hs⟩

/-! ### The invariant holds for every parsed record -/

theorem recInv_parseData (data : Json) : RecInv (parseData data) := by
  unfold parseData
  split
  · next r heq => exact recInv_applyThreshold r (parseDataCore_ok_shape _ _ heq).1
  · exact recInv_routeExn _

theorem recInv_parseResponse (loads : String → Except String Json) (raw : String) :
    RecInv (parseResponse loads raw) := by
  unfold parseResponse
  split
  · exact recInv_routeExn _
  · split
    · exact recInv_createErrorResponse _ _
    · exact recInv_parseData _

/-! ### The invariant propagates through reconciliation and the loop -/

theorem foldl_maxByConf_mem :
    ∀ (rest : List VerificationRecord) (acc : VerificationRecord),
      rest.foldl
          (fun best x => if best.confidence_score < x.confidence_score then x else best)
          acc = acc ∨
        rest.foldl
          (fun best x => if best.confidence_score < x.confidence_score then x else best)
          acc ∈ rest
  | [], _ => Or.inl rfl
  | x :: xs, acc => by
    rw [List.foldl_cons]
    rcases foldl_maxByConf_mem xs
        (if acc.confidence_score < x.confidence_score then x else acc) with h | h
    · rw [h]
      by_cases hc : acc.confidence_score < x.confidence_score
      · rw [if_pos hc]
        exact Or.inr (List.mem_cons_self x xs)
      · rw [if_neg hc]
        exact Or.inl rfl
    · exact Or.inr (List.mem_cons_of_mem x h)

theorem pyMaxByConf_mem (first : VerificationRecord) (rest : List VerificationRecord) :
    pyMaxByConf first rest ∈ first :: rest := by
  rcases foldl_maxByConf_mem rest first with h | h
  · rw [pyMaxByConf, h]
    exact List.mem_cons_self first rest
  · exact List.mem_cons_of_mem first h

theorem recInv_reconcileStep (loads : String → Except String Json) (pd : PlanDetails)
    (req : ModelId → Except String String) (r1 r2 : VerificationRecord)
    (h1 : RecInv r1) (h2 : RecInv r2) (r : VerificationRecord) (reqs : List ModelId)
    (h : reconcileStep loads pd req r1 r2 = (.ok r, reqs)) : RecInv r := by
  unfold reconcileStep at h
  split at h
  · split at h
    · injection h with ha hb
      exact Except.noConfusion ha
    · split at h
      · injection h with ha hb
        exact Except.noConfusion ha
      · injection h with ha hb
        obtain rfl := Except.ok.inj ha
        next txt _ =>
          have hmem := pyMaxByConf_mem r1 [r2, parseResponse loads txt]
          simp only [List.mem_cons, List.not_mem_nil, or_false] at hmem
          rcases hmem with hm | hm | hm
          · rw [hm]
            exact h1
          · rw [hm]
            exact h2
          · rw [hm]
            exact recInv_parseResponse loads txt
  · injection h with ha hb
    obtain rfl := Except.ok.inj ha
    split
    · exact h1
    · exact h2

theorem recInv_attemptBody (loads : String → Except String Json) (pd : PlanDetails)
    (env : AttemptEnv) (r : VerificationRecord) (reqs : List ModelId)
    (h : attemptBody loads pd env = (.ok r, reqs)) : RecInv r := by
  unfold attemptBody at h
  split at h
  · injection h with ha hb
    exact Except.noConfusion ha
  · split at h
    · injection h with ha hb
      exact Except.noConfusion ha
    · exact recInv_reconcileStep _ _ _ _ _
        (recInv_parseResponse _ _) (recInv_parseResponse _ _) _ _ h

theorem recInv_runAttempts (loads : String → Except String Json) (pd : PlanDetails)
    (envs : ℕ → AttemptEnv) :
    ∀ (fuel idx : ℕ) (lastErr : Option String),
      RecInv (runAttempts loads pd envs fuel idx lastErr).1 ∧
        ∀ w ∈ (runAttempts loads pd envs fuel idx lastErr).2.cacheWrites, RecInv w
  | 0, idx, lastErr => by
    constructor
    · intro hv
      simp [runAttempts, terminalRecord] at hv
    · intro w hw
      simp [runAttempts, Stats.empty] at hw
  | fuel + 1, idx, lastErr => by
    rcases hab : attemptBody loads pd (envs idx) with ⟨res, reqs⟩
    cases res with
    | ok r =>
      have hr : RecInv r := recInv_attemptBody _ _ _ _ _ hab
      constructor
      · simp only [runAttempts, hab]
        exact hr
      · intro w hw
        simp only [runAttempts, hab] at hw
        split at hw
        · rw [List.mem_singleton] at hw
          exact hw ▸ hr
        · exact absurd hw (List.not_mem_nil _)
    | error e =>
      have ih := recInv_runAttempts loads pd envs fuel (idx + 1) (some e.msg)
      constructor
      · simp only [runAttempts, hab]
        exact ih.1
      · intro w hw
        simp only [runAttempts, hab] at hw
        exact ih.2 w hw

/-- **C1.**  For every raw model output the parsed record satisfies the
threshold invariant (`verified → confidence_score ≥ 0.8 ∧ error_type
= null`); and every record returned by `verify_price` — a cache hit
(under the cache invariant that caching itself maintains, third
conjunct), a reconciled selection, or the terminal failure record —
satisfies it as well. -/
theorem c1_threshold_invariant (loads : String → Except String Json) (raw : String)
    (pd : PlanDetails) (envs : ℕ → AttemptEnv) (retryCount : ℕ)
    (cached : Option VerificationRecord)
    (hcache : ∀ c, cached = some c → RecInv c) :
    RecInv (parseResponse loads raw) ∧
      RecInv (verifyPrice loads pd envs retryCount cached).1 ∧
      ∀ w ∈ (verifyPrice loads pd envs retryCount cached).2.cacheWrites, RecInv w := by
  refine ⟨recInv_parseResponse loads raw, ?_, ?_⟩
  · cases cached with
    | some c => exact hcache c rfl
    | none => exact (recInv_runAttempts loads pd envs retryCount 0 none).1
  · cases cached with
    | some c =>
      intro w hw
      simp [verifyPrice, Stats.empty] at hw
    | none => exact (recInv_runAttempts loads pd envs retryCount 0 none).2

/-- **C1, witness** at a concrete failing environment with an empty cache. -/
theorem c1_threshold_invariant_witness :
    RecInv (parseResponse (fun _ => .error "bad") "x") ∧
      RecInv (verifyPrice (fun _ => .error "bad") ⟨none⟩
        (fun _ => ⟨.error "down", .error "down", fun _ => .error "down"⟩) 2 none).1 ∧
      ∀ w ∈ (verifyPrice (fun _ => .error "bad") ⟨none⟩
          (fun _ => ⟨.error "down", .error "down", fun _ => .error "down"⟩) 2
          none).2.cacheWrites, RecInv w :=
  c1_threshold_invariant _ _ _ _ _ none (fun _ h => nomatch h)

/-! ## Claim C9: `promo_details` is read from a key the schema never emits -/

theorem lookupKey_setAssoc_ne (k k' : String) (v : Json) :
    ∀ kvs : List (String × Json), k' ≠ k →
      lookupKey (setAssoc kvs k v) k' = lookupKey kvs k'
  | [], h => by
    simp only [setAssoc, lookupKey, if_neg (Ne.symm h)]
  | (kk, vv) :: rest, h => by
    by_cases hk : kk = k
    · subst hk
      simp only [setAssoc, if_pos rfl, lookupKey, if_neg (Ne.symm h)]
    · simp only [setAssoc, if_neg hk, lookupKey]
      by_cases hk' : kk = k'
      · simp [hk']
      · simp only [if_neg hk', lookupKey_setAssoc_ne k k' v rest h]

theorem getD_setKey_ne (j : Json) (k k' : String) (v : Json) (h : k' ≠ k) :
    (j.setKey k v).getD k' = j.getD k' := by
  cases j with
  | obj kvs =>
    simp only [Json.setKey, Json.getD, Json.getKey?]
    rw [lookupKey_setAssoc_ne k k' v kvs h]
  | null => rfl
  | bool b => rfl
  | num q => rfl
  | str s => rfl
  | arr elems => rfl

/-- **C9.**  For every model response that decodes to a JSON object with
no `promo` key (the prompted schema emits `promotion_details` and never
`promo`), the parsed record's `promo_details` field is null.  (The
statement needs no well-formedness beyond the absent key: failed parses
also carry a null `promo_details`.) -/
theorem c9_promo_details_null (loads : String → Except String Json) (raw txt : String)
    (data : Json) (hpre : preprocess raw = .ok txt) (hld : loads txt = .ok data)
    (hpromo : data.getKey? "promo" = none) :
    (parseResponse loads raw).promo_details = Json.null := by
  simp only [parseResponse, hpre, hld]
  unfold parseData
  split
  · next r heq =>
    obtain ⟨-, -, s1, s2, hp⟩ := parseDataCore_ok_shape data r heq
    rw [applyThreshold_promo, hp,
      getD_setKey_ne _ _ _ _ (by decide : "promo" ≠ "promotion_details"),
      getD_setKey_ne _ _ _ _ (by decide : "promo" ≠ "plan_details"),
      Json.getD, hpromo]
    rfl
  · next e _ =>
    cases e <;> rfl

/-- **C9, witness**: a schema-conforming object with all required keys
and no `promo` key parses with a null `promo_details`. -/
theorem c9_promo_details_null_witness :
    (parseResponse (fun _ => .ok (Json.obj
        [("plan_name", .str "NBN 100"), ("price", .num 89),
         ("price_string", .str "$89/mo"), ("promotion_details", .str "none"),
         ("plan_details", .str "unlimited"), ("verified", .bool true),
         ("confidence", .num 1),
         ("match_criteria", .obj [("speed_match", .bool true)])]))
      "{}").promo_details = Json.null :=
  c9_promo_details_null _ "{}" (pyStripStr "{}") _ rfl rfl rfl

/-! ## Claim C8: the error taxonomy of the parser -/

/-- A document with all required keys whose `price` is a non-numeric
string. -/
def c8Data : Json :=
  .obj [("price", .str "abc"), ("verified", .bool true),
        ("confidence", .num 1), ("match_criteria", .obj [])]

/-- **C8, counterexample.**  A `price` value that cannot be coerced to
float raises `ValueError` (`float('abc')`), which the source's `except
ValueError` clause maps to `VALIDATION_ERROR` — not `PROCESSING_ERROR`
as claimed — and the message is the coercion failure text, not a list of
missing keys. -/
theorem c8_counterexample :
    (parseResponse (fun _ => .ok c8Data) "{}").error_type = some .VALIDATION_ERROR ∧
      (parseResponse (fun _ => .ok c8Data) "{}").error_type ≠ some .PROCESSING_ERROR ∧
      (parseResponse (fun _ => .ok c8Data) "{}").error =
        some "could not convert string to float: 'abc'" := by
  refine ⟨rfl, ?_, rfl⟩
  decide

/-- **C8, amended.**  After successful JSON decoding, a failing parse
yields `VALIDATION_ERROR` exactly for the `ValueError`-class failures —
the missing-required-keys check, or a `price`/`confidence` string value
that cannot be coerced to float — with the failure text as the message;
every other unexpected failure (a document that is not an object, a
null/list/object value where a float is required, a truthy non-string
detail value) yields `PROCESSING_ERROR` with a message embedding the
original failure text. -/
theorem c8_validation_vs_processing (data : Json) (e : PyExn)
    (h : parseDataCore data = .error e) :
    (∀ m, e = .valueError m →
      parseData data = createErrorResponse .VALIDATION_ERROR m ∧
        ((∃ t, m = "Missing required fields: " ++ t) ∨
          (∃ s, m = "could not convert string to float: '" ++ s ++ "'"))) ∧
      ((∀ m, e ≠ .valueError m) →
        parseData data = createErrorResponse .PROCESSING_ERROR
          ("Failed to process response: " ++ e.msg)) := by
  constructor
  · rintro m rfl
    refine ⟨?_, parseDataCore_valueError data m h⟩
    simp only [parseData, h]
    rfl
  · intro hne
    simp only [parseData, h]
    cases e with
    | valueError m => exact absurd rfl (hne m)
    | typeError m => rfl
    | attributeError m => rfl
    | indexError m => rfl
    | keyError m => rfl
    | other m => rfl

/-- **C8, witness** for the amended taxonomy at the counterexample input. -/
theorem c8_validation_vs_processing_witness :
    parseData c8Data = createErrorResponse .VALIDATION_ERROR
        "could not convert string to float: 'abc'" ∧
      ((∃ t, "could not convert string to float: 'abc'" =
          "Missing required fields: " ++ t) ∨
        (∃ s, "could not convert string to float: 'abc'" =
          "could not convert string to float: '" ++ s ++ "'")) :=
  (c8_validation_vs_processing c8Data
      (.valueError "could not convert string to float: 'abc'") rfl).1 _ rfl

/-! ## Claim C2: disagreement resolution -/

/-- Python's `max([a, b, c], key=confidence)` characterized as the claim
words it: the first record of maximal confidence wins — `a` unless a
later record is strictly better, `b` only when strictly above `a` and at
least `c`, otherwise `c`. -/
theorem pyMaxByConf_three (a b c : VerificationRecord) :
    pyMaxByConf a [b, c] =
      (if b.confidence_score ≤ a.confidence_score ∧
          c.confidence_score ≤ a.confidence_score then a
       else if a.confidence_score < b.confidence_score ∧
          c.confidence_score ≤ b.confidence_score then b
       else c) := by
  unfold pyMaxByConf
  simp only [List.foldl_cons, List.foldl_nil]
  by_cases hab : a.confidence_score < b.confidence_score
  · rw [if_pos hab]
    by_cases hbc : b.confidence_score < c.confidence_score
    · rw [if_pos hbc, if_neg (by rintro ⟨h1, -⟩; exact absurd hab (not_lt.mpr h1)),
        if_neg (by rintro ⟨-, h2⟩; exact absurd hbc (not_lt.mpr h2))]
    · rw [if_neg hbc, if_neg (by rintro ⟨h1, -⟩; exact absurd hab (not_lt.mpr h1)),
        if_pos ⟨hab, not_lt.mp hbc⟩]
  · rw [if_neg hab]
    by_cases hac : a.confidence_score < c.confidence_score
    · rw [if_pos hac, if_neg (by rintro ⟨-, h2⟩; exact absurd hac (not_lt.mpr h2)),
        if_neg (by rintro ⟨h1, -⟩; exact absurd h1 hab)]
    · rw [if_neg hac, if_pos ⟨not_lt.mp hab, not_lt.mp hac⟩]

/-- **C2.**  When the two parsed results disagree on `current_price`:
with unequal confidences the lower-confidence model is re-queried exactly
once (all calls of an attempt use the attempt's single prompt, so the
re-query necessarily reuses it); with equal confidences and exactly one
result matching the advertised price, the other (non-matching) model is
re-queried exactly once; in both cases the final record is the first
record of maximal `confidence_score` in the enumeration order
(result1, result2, retryResult), as computed by Python's `max`. -/
theorem c2_disagreement_selection (loads : String → Except String Json)
    (pd : PlanDetails) (req : ModelId → Except String String)
    (r1 r2 : VerificationRecord) (txt : String)
    (hne : r1.current_price ≠ r2.current_price) :
    (r1.confidence_score ≠ r2.confidence_score →
      ∀ m : ModelId,
        m = (if r1.confidence_score > r2.confidence_score
             then ModelId.secondary else ModelId.primary) →
        req m = .ok txt →
        reconcileStep loads pd req r1 r2 =
          (.ok (pyMaxByConf r1 [r2, parseResponse loads txt]), [m])) ∧
    (r1.confidence_score = r2.confidence_score →
      ∀ b1 b2 : Bool,
        b1 = (pd.price.isSome && (r1.current_price == pd.price)) →
        b2 = (pd.price.isSome && (r2.current_price == pd.price)) →
        b1 ≠ b2 →
        ∀ m : ModelId,
          m = (if b1 then ModelId.secondary else ModelId.primary) →
          req m = .ok txt →
          reconcileStep loads pd req r1 r2 =
            (.ok (pyMaxByConf r1 [r2, parseResponse loads txt]), [m])) ∧
    (∀ a b c : VerificationRecord,
      pyMaxByConf a [b, c] =
        (if b.confidence_score ≤ a.confidence_score ∧
            c.confidence_score ≤ a.confidence_score then a
         else if a.confidence_score < b.confidence_score ∧
            c.confidence_score ≤ b.confidence_score then b
         else c)) := by
  refine ⟨?_, ?_, pyMaxByConf_three⟩
  · intro hconf m hm hreq
    unfold reconcileStep pickRequeryModel
    rw [if_pos hne, if_neg hconf, ← hm]
    simp [hreq]
  · intro hconf b1 b2 hb1 hb2 hbne m hm hreq
    unfold reconcileStep pickRequeryModel
    rw [if_pos hne, if_pos hconf]
    simp only []
    rw [← hb1, ← hb2]
    cases b1 with
    | true =>
      cases b2 with
      | true => exact absurd rfl hbne
      | false =>
        simp only [if_true] at hm
        subst hm
        simp [hreq]
    | false =>
      cases b2 with
      | false => exact absurd rfl hbne
      | true =>
        simp at hm
        subst hm
        simp [hreq]

/-- **C2, witness** for the unequal-confidence branch: prices `1 ≠ 2`,
confidences `1 > 0`, so the secondary model is re-queried once. -/
theorem c2_disagreement_selection_witness :
    reconcileStep (fun _ => .error "bad") ⟨none⟩ (fun _ => .ok "t")
        { verified := false, confidence_score := 1, current_price := some 1,
          promo_details := .null, plan_details := none, error := none,
          error_type := none, match_details := .obj [] }
        { verified := false, confidence_score := 0, current_price := some 2,
          promo_details := .null, plan_details := none, error := none,
          error_type := none, match_details := .obj [] } =
      (.ok (pyMaxByConf
          { verified := false, confidence_score := 1, current_price := some 1,
            promo_details := .null, plan_details := none, error := none,
            error_type := none, match_details := .obj [] }
          [{ verified := false, confidence_score := 0, current_price := some 2,
             promo_details := .null, plan_details := none, error := none,
             error_type := none, match_details := .obj [] },
           parseResponse (fun _ => .error "bad") "t"]),
       [ModelId.secondary]) :=
  (c2_disagreement_selection _ _ _ _ _ "t" (by decide)).1 (by decide)
    ModelId.secondary (by decide) rfl

/-! ## Unfolding lemmas for the retry loop -/

theorem runAttempts_ok_step (loads : String → Except String Json) (pd : PlanDetails)
    (envs : ℕ → AttemptEnv) (fuel rest : ℕ) (idx : ℕ) (lastErr : Option String)
    (r : VerificationRecord) (reqs : List ModelId) (hf : fuel = rest + 1)
    (hab : attemptBody loads pd (envs idx) = (.ok r, reqs)) :
    runAttempts loads pd envs fuel idx lastErr =
      (r, { failures := 0, delays := [], requeries := reqs,
            cacheWrites :=
              if r.verified ∧ r.confidence_score > ratPointEight then [r] else [],
            attemptsRun := 1 }) := by
  subst hf
  simp only [runAttempts, hab]

theorem runAttempts_error_step (loads : String → Except String Json) (pd : PlanDetails)
    (envs : ℕ → AttemptEnv) (fuel rest : ℕ) (idx : ℕ) (lastErr : Option String)
    (e : PyExn) (reqs : List ModelId) (hf : fuel = rest + 1)
    (hab : attemptBody loads pd (envs idx) = (.error e, reqs)) :
    runAttempts loads pd envs fuel idx lastErr =
      ((runAttempts loads pd envs rest (idx + 1) (some e.msg)).1,
       { failures := (runAttempts loads pd envs rest (idx + 1) (some e.msg)).2.failures + 1
         delays := handleRetryDelay (idx + 1) ::
           (runAttempts loads pd envs rest (idx + 1) (some e.msg)).2.delays
         requeries :=
           reqs ++ (runAttempts loads pd envs rest (idx + 1) (some e.msg)).2.requeries
         cacheWrites := (runAttempts loads pd envs rest (idx + 1) (some e.msg)).2.cacheWrites
         attemptsRun :=
           (runAttempts loads pd envs rest (idx + 1) (some e.msg)).2.attemptsRun + 1 }) := by
  subst hf
  simp only [runAttempts, hab]

theorem runAttempts_attemptsRun_one (loads : String → Except String Json)
    (pd : PlanDetails) (envs : ℕ → AttemptEnv) (idx : ℕ) (lastErr : Option String) :
    (runAttempts loads pd envs 1 idx lastErr).2.attemptsRun = 1 := by
  rcases hab : attemptBody loads pd (envs idx) with ⟨res, reqs⟩
  cases res with
  | ok r => simp [runAttempts, hab]
  | error e => simp [runAttempts, hab, Stats.empty]

/-! ## Claim C5: cache population is strict -/

theorem runAttempts_cacheWrites (loads : String → Except String Json) (pd : PlanDetails)
    (envs : ℕ → AttemptEnv) :
    ∀ (fuel idx : ℕ) (lastErr : Option String),
      (runAttempts loads pd envs fuel idx lastErr).2.cacheWrites =
        (if (runAttempts loads pd envs fuel idx lastErr).1.verified ∧
            ratPointEight < (runAttempts loads pd envs fuel idx lastErr).1.confidence_score
         then [(runAttempts loads pd envs fuel idx lastErr).1] else [])
  | 0, idx, lastErr => by
    simp [runAttempts, Stats.empty, terminalRecord]
  | fuel + 1, idx, lastErr => by
    rcases hab : attemptBody loads pd (envs idx) with ⟨res, reqs⟩
    cases res with
    | ok r =>
      rw [runAttempts_ok_step loads pd envs (fuel + 1) fuel idx lastErr r reqs rfl hab]
    | error e =>
      rw [runAttempts_error_step loads pd envs (fuel + 1) fuel idx lastErr e reqs rfl hab]
      exact runAttempts_cacheWrites loads pd envs fuel (idx + 1) (some e.msg)

/-- **C5.**  A result is written to the cache iff it is `verified` with
`confidence_score` strictly greater than `0.8`; in particular a record
with confidence exactly `0.8 = 4/5` is never cached. -/
theorem c5_cache_population (loads : String → Except String Json) (pd : PlanDetails)
    (envs : ℕ → AttemptEnv) (retryCount : ℕ) :
    (verifyPrice loads pd envs retryCount none).2.cacheWrites =
      (if (verifyPrice loads pd envs retryCount none).1.verified ∧
          4 / 5 < (verifyPrice loads pd envs retryCount none).1.confidence_score
       then [(verifyPrice loads pd envs retryCount none).1] else []) ∧
      ∀ w ∈ (verifyPrice loads pd envs retryCount none).2.cacheWrites,
        w.confidence_score ≠ 4 / 5 := by
  have hv : verifyPrice loads pd envs retryCount none =
      runAttempts loads pd envs retryCount 0 none := rfl
  have hmain := runAttempts_cacheWrites loads pd envs retryCount 0 none
  constructor
  · rw [hv, hmain, ratPointEight_eq]
  · intro w hw
    rw [hv, hmain] at hw
    split at hw
    · next hcond =>
      rw [List.mem_singleton] at hw
      subst hw
      exact ne_of_gt (ratPointEight_eq ▸ hcond.2)
    · exact absurd hw (List.not_mem_nil _)

/-! ## Claim C3: unresolvable ambiguity restarts the whole attempt -/

/-- **C3.**  Parsed results that disagree on price with equal confidence
and tied match status (both or neither matching the advertised price —
including when no advertised price is supplied) raise the retryable
`ValueError` without issuing any re-query; under `retry_count = 2` the
orchestrator's loop consumes it: one retry-budget unit is charged, the
first backoff delay `_handle_retry_delay(1)` is applied, and a full
second attempt runs (`attemptsRun = 2`).  `verifyPrice` is a total
function, so the condition never reaches the caller as a raised fault. -/
theorem c3_unresolvable_ambiguity (loads : String → Except String Json)
    (pd : PlanDetails) (envs : ℕ → AttemptEnv) (t1 t2 : String)
    (h1 : (envs 0).primaryResp = .ok t1) (h2 : (envs 0).secondaryResp = .ok t2)
    (hne : (parseResponse loads t1).current_price ≠
      (parseResponse loads t2).current_price)
    (hconf : (parseResponse loads t1).confidence_score =
      (parseResponse loads t2).confidence_score)
    (htie : (pd.price.isSome && ((parseResponse loads t1).current_price == pd.price)) =
      (pd.price.isSome && ((parseResponse loads t2).current_price == pd.price))) :
    attemptBody loads pd (envs 0) =
      (.error (.valueError "Equal confidence with unclear match quality requires full retry"),
       []) ∧
      1 ≤ (verifyPrice loads pd envs 2 none).2.failures ∧
      (verifyPrice loads pd envs 2 none).2.delays.head? = some (handleRetryDelay 1) ∧
      (verifyPrice loads pd envs 2 none).2.attemptsRun = 2 := by
  have hbody : attemptBody loads pd (envs 0) =
      (.error (.valueError "Equal confidence with unclear match quality requires full retry"),
       []) := by
    simp only [attemptBody, h1, h2]
    unfold reconcileStep pickRequeryModel
    rw [if_pos hne, if_pos hconf]
    simp only []
    rw [← htie, Bool.and_not_self]
    simp
  have hv : verifyPrice loads pd envs 2 none = runAttempts loads pd envs 2 0 none := rfl
  have hstep := runAttempts_error_step loads pd envs 2 1 0 none _ _ rfl hbody
  refine ⟨hbody, ?_, ?_, ?_⟩
  · rw [hv, hstep]
    exact Nat.le_add_left 1 _
  · rw [hv, hstep]
    rfl
  · rw [hv, hstep]
    rw [runAttempts_attemptsRun_one]

/-- Parsed form of `{"price": 1, "verified": false, "confidence": 0,
"match_criteria": {}}`-style documents used in the concrete witnesses. -/
def c3DataA : Json :=
  .obj [("price", .num 1), ("verified", .bool false), ("confidence", .num 0),
        ("match_criteria", .obj [])]

def c3DataB : Json :=
  .obj [("price", .num 2), ("verified", .bool false), ("confidence", .num 0),
        ("match_criteria", .obj [])]

def c3Loads : String → Except String Json :=
  fun s => if s = "A" then .ok c3DataA else .ok c3DataB

def c3Envs : ℕ → AttemptEnv :=
  fun _ => ⟨.ok "A", .ok "B", fun _ => .ok "A"⟩

/-- **C3, witness**: prices 1 vs 2 at equal confidence 0 with no
advertised price. -/
theorem c3_unresolvable_ambiguity_witness :
    attemptBody c3Loads ⟨none⟩ (c3Envs 0) =
      (.error (.valueError "Equal confidence with unclear match quality requires full retry"),
       []) ∧
      1 ≤ (verifyPrice c3Loads ⟨none⟩ c3Envs 2 none).2.failures ∧
      (verifyPrice c3Loads ⟨none⟩ c3Envs 2 none).2.delays.head? =
        some (handleRetryDelay 1) ∧
      (verifyPrice c3Loads ⟨none⟩ c3Envs 2 none).2.attemptsRun = 2 :=
  c3_unresolvable_ambiguity c3Loads ⟨none⟩ c3Envs "A" "B" rfl rfl
    (by decide) (by decide) (by decide)

/-! ## Claim C4: retry exhaustion -/

/-- **C4.**  `verifyPrice` is a total function of its inputs (no raised
fault can reach the caller).  When both attempts of a `retry_count = 2`
call fail, it returns exactly one terminal record — `verified = false`,
`error_type = VERIFICATION_FAILED`, the last error text — after exactly
2 attempts, with backoff delays `min(300, 2^1*30) = 60` and
`min(300, 2^2*30) = 120` applied after the first and second failures. -/
theorem c4_retry_exhaustion (loads : String → Except String Json) (pd : PlanDetails)
    (envs : ℕ → AttemptEnv) (e1 e2 : PyExn) (reqs1 reqs2 : List ModelId)
    (h1 : attemptBody loads pd (envs 0) = (.error e1, reqs1))
    (h2 : attemptBody loads pd (envs 1) = (.error e2, reqs2)) :
    verifyPrice loads pd envs 2 none =
      (terminalRecord (some e2.msg),
       { failures := 2, delays := [60, 120], requeries := reqs1 ++ reqs2,
         cacheWrites := [], attemptsRun := 2 }) ∧
      terminalRecord (some e2.msg) =
        { verified := false, confidence_score := 0, current_price := none,
          promo_details := .null, plan_details := none, error := some e2.msg,
          error_type := some .VERIFICATION_FAILED, match_details := .obj [] } ∧
      [60, 120] = [handleRetryDelay 1, handleRetryDelay 2] := by
  refine ⟨?_, rfl, by decide⟩
  have hv : verifyPrice loads pd envs 2 none = runAttempts loads pd envs 2 0 none := rfl
  rw [hv, runAttempts_error_step loads pd envs 2 1 0 none e1 reqs1 rfl h1,
    runAttempts_error_step loads pd envs 1 0 1 (some e1.msg) e2 reqs2 rfl h2]
  simp [runAttempts, Stats.empty, handleRetryDelay]

/-- **C4, witness**: both model calls raise on every attempt. -/
theorem c4_retry_exhaustion_witness :
    verifyPrice (fun _ => .error "bad") ⟨none⟩
        (fun _ => ⟨.error "down", .ok "x", fun _ => .error "down"⟩) 2 none =
      (terminalRecord (some "down"),
       { failures := 2, delays := [60, 120], requeries := [] ++ [],
         cacheWrites := [], attemptsRun := 2 }) ∧
      terminalRecord (some "down") =
        { verified := false, confidence_score := 0, current_price := none,
          promo_details := .null, plan_details := none, error := some "down",
          error_type := some .VERIFICATION_FAILED, match_details := .obj [] } ∧
      [60, 120] = [handleRetryDelay 1, handleRetryDelay 2] :=
  c4_retry_exhaustion _ _ _ (.other "down") (.other "down") [] [] rfl rfl

/-! ## Claim C10: both parses fail in one attempt -/

/-- **C10.**  When both model responses of an attempt parse to failure
records (e.g. invalid JSON), both have `current_price = None`, so the
agreement path applies: `verify_price` returns the first model's failed
record directly — no re-query, no retry-budget unit, no backoff delay,
no cache write, exactly one attempt. -/
theorem c10_double_parse_failure (loads : String → Except String Json)
    (pd : PlanDetails) (envs : ℕ → AttemptEnv) (retryCount : ℕ) (t1 t2 : String)
    (et1 et2 : ErrorType) (m1 m2 : String)
    (h1 : (envs 0).primaryResp = .ok t1) (h2 : (envs 0).secondaryResp = .ok t2)
    (hp1 : parseResponse loads t1 = createErrorResponse et1 m1)
    (hp2 : parseResponse loads t2 = createErrorResponse et2 m2)
    (hrc : 0 < retryCount) :
    verifyPrice loads pd envs retryCount none =
      (createErrorResponse et1 m1,
       { failures := 0, delays := [], requeries := [], cacheWrites := [],
         attemptsRun := 1 }) := by
  have hab : attemptBody loads pd (envs 0) = (.ok (createErrorResponse et1 m1), []) := by
    simp only [attemptBody, h1, h2, hp1, hp2]
    unfold reconcileStep
    rw [if_neg (by simp [createErrorResponse])]
    rw [if_pos (by simp [createErrorResponse])]
  rcases retryCount with _ | n
  · exact absurd hrc (by omega)
  · have hv : verifyPrice loads pd envs (n + 1) none =
        runAttempts loads pd envs (n + 1) 0 none := rfl
    rw [hv, runAttempts_ok_step loads pd envs (n + 1) n 0 none _ _ rfl hab]
    simp [createErrorResponse]

/-- **C10, witness**: neither response is valid JSON. -/
theorem c10_double_parse_failure_witness :
    verifyPrice (fun _ => .error "bad") ⟨none⟩
        (fun _ => ⟨.ok "x", .ok "y", fun _ => .error "down"⟩) 2 none =
      (createErrorResponse .INVALID_JSON "Failed to parse JSON response",
       { failures := 0, delays := [], requeries := [], cacheWrites := [],
         attemptsRun := 1 }) :=
  c10_double_parse_failure _ _ _ 2 "x" "y" .INVALID_JSON .INVALID_JSON
    "Failed to parse JSON response" "Failed to parse JSON response"
    rfl rfl rfl rfl (by omega)

end SmartScraper
